import Mathlib

/-!
Shallow embedding of the gitui working-tree explorer core
(src/app.rs, src/git_ops.rs, src/file_system.rs) and proofs about it.

Repository effects (git status queries, diff streams, commit and staging
results, directory listings) are modelled as oracle data carried by a
`Repo` record; the pure state-manipulation logic is translated directly
from the Rust source.
-/

namespace Gitui

/-- Coarse per-path change classification (git2 Status values used by the
program). -/
inductive Status where
  | current
  | wtNew
  | wtModified
  | wtDeleted
  | indexNew
  | indexModified
  | conflicted
  deriving DecidableEq, Repr

/-- One row of the flat on-screen tree (struct FileEntry, file_system.rs). -/
structure FileEntry where
  name : String
  status : Status
  is_dir : Bool
  parent : Option String
  depth : Nat
  deriving DecidableEq, Repr

/-- Kind of a line record in a diff stream (git2 DiffLineType values the
program distinguishes; `other` covers the wildcard arm). -/
inductive DiffLineType where
  | addition
  | deletion
  | addEOFNL
  | deleteEOFNL
  | context
  | other
  deriving DecidableEq, Repr

/-- One line record of a diff stream, with the owning file paths of its
delta on the new and old side. -/
structure DiffLine where
  newPath : Option String
  oldPath : Option String
  kind : DiffLineType
  content : String
  deriving DecidableEq, Repr

/-- The marker text pushed for a line of the given kind by append_diff
(git_ops.rs lines 46-53); the wildcard arm pushes nothing. -/
def lineMarker : DiffLineType → String
  | .addition => "+"
  | .deletion => "-"
  | .addEOFNL => "+\n"
  | .deleteEOFNL => "-\n"
  | .context => " "
  | .other => ""

/-- The path filter of append_diff (git_ops.rs line 43): a line is kept when
the new-side or old-side file path of the delta equals the selected path. -/
def lineMatches (l : DiffLine) (path : String) : Bool :=
  l.newPath == some path || l.oldPath == some path

/-- append_diff (git_ops.rs lines 40-62): stream the diff, and for every
line whose delta matches the selected path append a marker plus the raw
line content; when no line matched, append a literal No changes line. -/
def append_diff (content : String) (diff : List DiffLine) (path : String) : String :=
  let r := diff.foldl
    (fun (acc : String × Bool) l =>
      if lineMatches l path then (acc.1 ++ lineMarker l.kind ++ l.content, true) else acc)
    (content, false)
  if r.2 then r.1 else r.1 ++ "No changes\n"

/-- Concatenation of a list of strings, in order. -/
def concatStrings : List String → String
  | [] => ""
  | s :: rest => s ++ concatStrings rest

/-- The report the specification describes for one diff section: the input
content followed by, for exactly the matching lines in stream order, the
kind marker and the raw line text. -/
def specFilteredReport (content : String) (diff : List DiffLine) (path : String) : String :=
  content ++ concatStrings ((diff.filter (fun l => lineMatches l path)).map
    (fun l => lineMarker l.kind ++ l.content))

/-- A modal dialog (struct Modal, app.rs). -/
structure Modal where
  content : String
  is_visible : Bool
  deriving DecidableEq, Repr

/-- Which pane currently has focus (enum FocusedPane, app.rs). -/
inductive FocusedPane where
  | fileList
  | details
  | debug
  deriving DecidableEq, Repr

/-- The application state (struct App, app.rs). The HashMap of expanded
directories is modelled as an association list. -/
structure App where
  files : List FileEntry
  expanded_dirs : List (String × Bool)
  selected_index : Nat
  right_pane_content : String
  debug_content : String
  commit_modal : Modal
  help_modal : Modal
  root_dir : String
  debug_mode : Bool
  focused_pane : FocusedPane
  details_scroll : Nat
  deriving DecidableEq, Repr

/-- Oracle data standing for the live repository: the file list the tree
builder get_file_list would return, the two diff streams, and the success
of the fallible git operations. -/
structure Repo where
  fileList : List FileEntry
  unstagedDiff : List DiffLine
  stagedDiff : List DiffLine
  headOk : Bool
  commitOk : Bool
  stageOk : Bool
  deriving Repr

/-- Outcome of an AppResult-returning operation: success with the final
state, a propagated git error with the state at the error point, or an
out-of-bounds Vec index (a Rust panic). -/
inductive Res (α : Type) where
  | ok (a : α)
  | err (a : α)
  | panic
  deriving DecidableEq, Repr

/-- HashMap::entry(k).or_insert(v) followed by storing `v` at the key:
update the binding in place when present, append it otherwise. -/
def setDir (m : List (String × Bool)) (k : String) (v : Bool) : List (String × Bool) :=
  if (m.find? (fun p => p.1 == k)).isSome then
    m.map (fun p => if p.1 == k then (k, v) else p)
  else
    m ++ [(k, v)]

/-- Lookup of the expanded flag for a directory key. -/
def getDir (m : List (String × Bool)) (k : String) : Option Bool :=
  (m.find? (fun p => p.1 == k)).map (fun p => p.2)

/-- update_right_pane (git_ops.rs lines 5-38): read the selected entry
(unguarded indexing), and either show a directory summary or assemble the
two-section diff report, replacing it by the literal no-changes message
when the trimmed report equals the bare section headers. -/
def update_right_pane (repo : Repo) (app : App) : Res App :=
  match app.files.get? app.selected_index with
  | none => .panic
  | some selected_file =>
    if selected_file.is_dir then
      .ok { app with right_pane_content := "Directory: " ++ selected_file.name }
    else
      let c1 := append_diff "Unstaged changes:\n" repo.unstagedDiff selected_file.name
      if repo.headOk then
        let c2 := append_diff (c1 ++ "\nStaged changes:\n") repo.stagedDiff selected_file.name
        let final := if c2.trim = "Unstaged changes:\nStaged changes:" then
          "No changes detected for file: " ++ selected_file.name
        else c2
        .ok { app with right_pane_content := final }
      else .err app

/-- scroll_details_up (app.rs lines 114-118). -/
def scroll_details_up (app : App) : App :=
  if app.details_scroll > 0 then { app with details_scroll := app.details_scroll - 1 } else app

/-- scroll_details_down (app.rs lines 120-122). -/
def scroll_details_down (app : App) : App :=
  { app with details_scroll := app.details_scroll + 1 }

/-- move_selection_up (app.rs lines 124-128). -/
def move_selection_up (app : App) : App :=
  if !app.files.isEmpty && decide (app.selected_index > 0) then
    { app with selected_index := app.selected_index - 1 }
  else app

/-- move_selection_down (app.rs lines 130-134). -/
def move_selection_down (app : App) : App :=
  if !app.files.isEmpty && decide (app.selected_index < app.files.length - 1) then
    { app with selected_index := app.selected_index + 1 }
  else app

/-- collapse_directory (app.rs lines 160-167): starting right after the
entry at start_index, remove the longest run of entries whose depth is
strictly greater than the depth of that entry. Indexing files[start_index] out
of bounds is a panic, modelled as none. -/
def collapse_directory (files : List FileEntry) (start_index : Nat) : Option (List FileEntry) :=
  match files.get? start_index with
  | none => none
  | some sf =>
    some (files.take (start_index + 1)
      ++ (files.drop (start_index + 1)).dropWhile (fun f => decide (sf.depth < f.depth)))

/-- toggle_directory (app.rs lines 136-158): on a directory entry, flip its
expanded flag; when newly expanded, splice the list returned by
get_file_list(repo) right after the selected entry; when collapsed, remove
the subtree run. On a file entry, delegate to update_right_pane. -/
def toggle_directory (repo : Repo) (app : App) : Res App :=
  if app.files.isEmpty then .ok app
  else
    match app.files.get? app.selected_index with
    | none => .panic
    | some selected_file =>
      if selected_file.is_dir then
        let full_path := app.root_dir ++ "/" ++ selected_file.name
        let is_expanded := !((getDir app.expanded_dirs full_path).getD false)
        let dirs := setDir app.expanded_dirs full_path is_expanded
        if is_expanded then
          .ok { app with
            expanded_dirs := dirs,
            files := app.files.take (app.selected_index + 1) ++ repo.fileList
              ++ app.files.drop (app.selected_index + 1) }
        else
          match collapse_directory app.files app.selected_index with
          | none => .panic
          | some fs => .ok { app with expanded_dirs := dirs, files := fs }
      else
        update_right_pane repo app

/-- start_commit (app.rs lines 169-173): stage everything, then show the
commit modal; a staging error propagates before the modal is shown. -/
def start_commit (repo : Repo) (app : App) : Res App :=
  if repo.stageOk then
    .ok { app with commit_modal := { app.commit_modal with is_visible := true } }
  else .err app

/-- toggle_help (app.rs lines 175-177). -/
def toggle_help (app : App) : App :=
  { app with help_modal := { app.help_modal with is_visible := !app.help_modal.is_visible } }

/-- close_modals (app.rs lines 179-182): hide both modals; the commit
message text is not cleared. -/
def close_modals (app : App) : App :=
  { app with
    commit_modal := { app.commit_modal with is_visible := false },
    help_modal := { app.help_modal with is_visible := false } }

/-- perform_commit (app.rs lines 184-192): run create_commit; on success
hide the dialog, clear the message, rebuild the file list from
get_file_list(repo), clear the expansion map and the detail content. On
failure the error propagates before any of those mutations. -/
def perform_commit (repo : Repo) (app : App) : Res App :=
  if repo.commitOk then
    .ok { app with
      commit_modal := { content := "", is_visible := false },
      files := repo.fileList,
      expanded_dirs := [],
      right_pane_content := "" }
  else .err app

/-- toggle_debug_mode (app.rs lines 199-201). -/
def toggle_debug_mode (app : App) : App :=
  { app with debug_mode := !app.debug_mode }

/-- set_focused_pane (app.rs lines 203-205). -/
def set_focused_pane (app : App) (pane : FocusedPane) : App :=
  { app with focused_pane := pane }

/-- The key codes handle_key_event distinguishes. -/
inductive KeyCode where
  | up
  | down
  | left
  | right
  | enter
  | esc
  | backspace
  | char (c : Char)
  | other
  deriving DecidableEq, Repr

/-- The commit-dialog arm of handle_key_event (app.rs lines 85-94): Enter
confirms, Esc cancels, characters and backspace edit the message. -/
def handle_commit_key (repo : Repo) (key : KeyCode) (app : App) : Res App :=
  match key with
  | .enter => perform_commit repo app
  | .esc => .ok (close_modals app)
  | .char c =>
      .ok { app with commit_modal :=
        { app.commit_modal with content := app.commit_modal.content.push c } }
  | .backspace =>
      .ok { app with commit_modal :=
        { app.commit_modal with content := app.commit_modal.content.dropRight 1 } }
  | _ => .ok app

/-- The browsing arm of handle_key_event (app.rs lines 95-110), dispatched
on focused pane and key in source order. -/
def handle_browsing_key (repo : Repo) (key : KeyCode) (app : App) : Res App :=
  match app.focused_pane, key with
  | .fileList, .up => .ok (move_selection_up app)
  | .fileList, .down => .ok (move_selection_down app)
  | .details, .up => .ok (scroll_details_up app)
  | .details, .down => .ok (scroll_details_down app)
  | _, .left => .ok (set_focused_pane app .fileList)
  | _, .right => .ok (set_focused_pane app .details)
  | _, .enter => toggle_directory repo app
  | _, .char 'c' => start_commit repo app
  | _, .char '?' => .ok (toggle_help app)
  | _, .char 'd' => .ok (toggle_debug_mode app)
  | _, .esc => .ok (close_modals app)
  | _, _ => .ok app

/-- handle_key_event (app.rs lines 84-112): when the commit modal is
visible, keys edit or confirm or cancel the dialog; otherwise they are
dispatched by focused pane and key as in browsing mode. The help modal is
never consulted. -/
def handle_key_event (repo : Repo) (key : KeyCode) (app : App) : Res App :=
  if app.commit_modal.is_visible then
    handle_commit_key repo key app
  else
    handle_browsing_key repo key app

/-- stage_all_modified (git_ops.rs lines 64-79): for every status entry
whose status is not CURRENT, add its path (empty when absent) to the
index; finally write the index (the Bool component records the write). -/
def stage_all_modified (statuses : List (Option String × Status)) (index : List String) :
    List String × Bool :=
  (statuses.foldl
    (fun idx e => if e.2 != Status.current then idx ++ [e.1.getD ""] else idx) index,
   true)

/-- A node of the filesystem as seen by std::fs::read_dir, for the
supplementary scan of add_untracked_files. -/
inductive FsNode where
  | file (name : String)
  | dir (name : String) (children : List FsNode)

/-- Base file name of a node. -/
def FsNode.name : FsNode → String
  | .file n => n
  | .dir n _ => n

/-- Whether the node is a directory. -/
def FsNode.isDir : FsNode → Bool
  | .file _ => false
  | .dir _ _ => true

/-- Split a character list at every occurrence of the separator; the
result always has one more group than there are separators. -/
def splitCharList (c : Char) : List Char → List (List Char)
  | [] => [[]]
  | ch :: rest =>
      match splitCharList c rest with
      | [] => [[]]
      | g :: gs => if ch = c then [] :: g :: gs else (ch :: g) :: gs

/-- Rust str::split on one separator character, as a list of strings. -/
def splitOnSlash (s : String) : List String :=
  (splitCharList '/' s.data).map (fun l => String.mk l)

/-- Path components of a path string (Rust Path::components on plain
relative paths; the empty string has none). -/
def pathComponents (s : String) : List String :=
  if s = "" then [] else splitOnSlash s

/-- Rust Path::join of a directory path and a child name for plain
relative paths. -/
def joinPath (d n : String) : String :=
  if d = "" then n else d ++ "/" ++ n

/-- The status-query phase of get_file_list (file_system.rs lines 26-46):
for every status entry whose path lies under current_dir, register the
path relative to current_dir once, keyed by its joined string, with depth
one less than its component count and a filesystem-stat directory flag. -/
def statusPhase (statuses : List (Option String × Status)) (isDir : String → Bool)
    (current_dir : String) : List FileEntry × List String :=
  statuses.foldl
    (fun (acc : List FileEntry × List String) e =>
      let pathStr := e.1.getD ""
      let path := pathComponents pathStr
      let cd := pathComponents current_dir
      if cd.isPrefixOf path then
        let rel := path.drop cd.length
        let name := String.intercalate "/" rel
        if acc.2.contains name then acc
        else
          (acc.1 ++ [{ name := name, status := e.2, is_dir := isDir pathStr,
                       parent := none, depth := rel.length - 1 }],
           acc.2 ++ [name])
      else acc)
    ([], [])

mutual

/-- One read_dir entry inside add_untracked_files (file_system.rs lines
76-103): register the bare file name if unseen, with a per-path status
lookup defaulting to WT_NEW, parent set to the containing directory path,
and depth the slash-component count of current_dir; recurse into
directories. -/
def addUntrackedNode (statusFile : String → Option Status) (dirPath curDir : String)
    (n : FsNode) (acc : List FileEntry × List String) : List FileEntry × List String :=
  let name := n.name
  if acc.2.contains name then acc
  else
    let pathStr := joinPath dirPath name
    let acc' : List FileEntry × List String :=
      (acc.1 ++ [{ name := name, status := (statusFile pathStr).getD Status.wtNew,
                   is_dir := n.isDir, parent := some dirPath,
                   depth := (splitOnSlash curDir).length }],
       acc.2 ++ [name])
    match n with
    | .file _ => acc'
    | .dir _ children =>
        let subdir := if curDir = "" then name else curDir ++ "/" ++ name
        addUntrackedList statusFile pathStr subdir children acc'

/-- add_untracked_files (file_system.rs lines 68-106) over a directory
listing, processing entries in order. -/
def addUntrackedList (statusFile : String → Option Status) (dirPath curDir : String)
    (ns : List FsNode) (acc : List FileEntry × List String) : List FileEntry × List String :=
  match ns with
  | [] => acc
  | n :: rest =>
      addUntrackedList statusFile dirPath curDir rest
        (addUntrackedNode statusFile dirPath curDir n acc)

end

/-- Lexicographic order on character lists by scalar value, the order
Rust str::cmp induces. -/
def charListLe : List Char → List Char → Bool
  | [], _ => true
  | _ :: _, [] => false
  | a :: as, b :: bs => if a = b then charListLe as bs else decide (a.val < b.val)

/-- The comparator of the sort in get_file_list (file_system.rs lines 57-63)
read as a not-greater relation: directories before files, and
lexicographic name order within a kind. -/
def fileLeB (a b : FileEntry) : Bool :=
  if a.is_dir == b.is_dir then charListLe a.name.data b.name.data else a.is_dir

/-- The sort relation as a proposition, for List.insertionSort. -/
def fileLe (a b : FileEntry) : Prop :=
  fileLeB a b = true

instance : DecidableRel fileLe := fun a b => instDecidableEqBool (fileLeB a b) true

/-- get_file_list (file_system.rs lines 13-66): status-query phase, then
the supplementary filesystem scan rooted at current_dir sharing the same
seen-name set, then the directories-first sort. The listing argument is
the std::fs::read_dir(current_dir) result: none when that call fails, in
which case add_untracked_files silently skips the scan (the if-let on
line 75); read_dir of the empty path always fails with ENOENT, so for an
empty current_dir the scan never runs. -/
def get_file_list (statuses : List (Option String × Status)) (isDir : String → Bool)
    (statusFile : String → Option Status) (listing : Option (List FsNode))
    (current_dir : String) : List FileEntry :=
  let acc := statusPhase statuses isDir current_dir
  let acc' :=
    match (if current_dir = "" then none else listing) with
    | none => acc
    | some ns => addUntrackedList statusFile current_dir current_dir ns acc
  List.insertionSort fileLe acc'.1

/-- The seen-name invariant threaded through the two build phases: entry
names are pairwise distinct and every one is recorded in the seen set. -/
def SeenInv (acc : List FileEntry × List String) : Prop :=
  (acc.1.map (fun e => e.name)).Nodup
    ∧ ∀ n ∈ acc.1.map (fun e => e.name), n ∈ acc.2

/- Concrete sample data used by the closed theorems below. -/

/-- A directory entry at depth zero. -/
def dirEntryA : FileEntry :=
  { name := "a", status := .wtModified, is_dir := true, parent := none, depth := 0 }

/-- A plain file entry at depth zero. -/
def fileEntryB : FileEntry :=
  { name := "b.txt", status := .wtModified, is_dir := false, parent := none, depth := 0 }

/-- A tracked, unchanged file entry. -/
def fileEntryX : FileEntry :=
  { name := "x.txt", status := .current, is_dir := false, parent := none, depth := 0 }

/-- A fresh application state with no files and both modals hidden. -/
def baseApp : App :=
  { files := [], expanded_dirs := [], selected_index := 0,
    right_pane_content := "", debug_content := "", commit_modal := ⟨"", false⟩,
    help_modal := ⟨"", false⟩, root_dir := "", debug_mode := false,
    focused_pane := .fileList, details_scroll := 0 }

/-- A repository oracle on which every git operation succeeds and all
query results are empty. -/
def baseRepo : Repo :=
  { fileList := [], unstagedDiff := [], stagedDiff := [],
    headOk := true, commitOk := true, stageOk := true }

/-- State before confirming a commit: two entries, the second selected,
dialog open. -/
def appC1 : App :=
  { baseApp with files := [dirEntryA, fileEntryB], selected_index := 1,
                 commit_modal := ⟨"fix", true⟩ }

/-- Repository whose post-commit rebuild returns a single entry. -/
def repoC1 : Repo := { baseRepo with fileList := [fileEntryB] }

/-- The state perform_commit produces from appC1 with repoC1. -/
def appC1post : App :=
  { appC1 with commit_modal := ⟨"", false⟩, files := [fileEntryB],
               expanded_dirs := [], right_pane_content := "" }

/-- State with a single collapsed directory entry selected. -/
def appC2 : App := { baseApp with files := [dirEntryA] }

/-- Repository whose tree builder returns that same root listing. -/
def repoC2 : Repo := { baseRepo with fileList := [dirEntryA] }

/-- The state after expanding: the whole root listing is spliced in after
the toggled entry. -/
def appC2mid : App :=
  { appC2 with expanded_dirs := [("/a", true)], files := [dirEntryA, dirEntryA] }

/-- A two-file diff stream: one addition line owned by x.txt and one
deletion line owned by y.txt. -/
def diffC3 : List DiffLine :=
  [{ newPath := some "x.txt", oldPath := some "x.txt", kind := .addition, content := "hello\n" },
   { newPath := some "y.txt", oldPath := some "y.txt", kind := .deletion, content := "bye\n" }]

/-- State with the unchanged file x.txt selected. -/
def appC4 : App := { baseApp with files := [fileEntryX] }

/-- The report update_right_pane actually stores for a file with two empty
diff sections. -/
def c4report : String := "Unstaged changes:\nNo changes\n\nStaged changes:\nNo changes\n"

/-- State composing the message msg with the commit dialog open. -/
def appC6 : App := { baseApp with commit_modal := ⟨"msg", true⟩ }

/-- Repository on which create_commit fails. -/
def repoC6 : Repo := { baseRepo with commitOk := false }

/-- State with the message wip typed into the open commit dialog. -/
def appC7 : App :=
  { baseApp with files := [dirEntryA, fileEntryB], selected_index := 1,
                 commit_modal := ⟨"wip", true⟩ }

/-- The state after cancelling the dialog from appC7: browsing again, the
typed text still in the buffer. -/
def appC7closed : App := { appC7 with commit_modal := ⟨"wip", false⟩ }

/-- Status-query result for the C8 scenario, a build scoped to the
directory sub: one modified file two levels below the scope. -/
def statusesC8 : List (Option String × Status) :=
  [(some "sub/inner/g.txt", Status.wtModified)]

/-- Successful read_dir listing of the scope directory sub for the C8
scenario: the nested directory holding that same file. -/
def listingC8 : Option (List FsNode) :=
  some [FsNode.dir "inner" [FsNode.file "g.txt"]]

/-- State with one file entry selected, for the bounds-safety witness. -/
def appC9 : App := { baseApp with files := [fileEntryX] }

/-- Browsing state with the help overlay open over two entries. -/
def appC10 : App :=
  { baseApp with files := [fileEntryX, fileEntryB], help_modal := ⟨"keys", true⟩ }

/- General lemmas about the embedded operations. -/

theorem append_diff_foldl (path : String) (diff : List DiffLine) (acc : String × Bool) :
    diff.foldl
      (fun (acc : String × Bool) l =>
        if lineMatches l path then (acc.1 ++ lineMarker l.kind ++ l.content, true) else acc)
      acc
    = (acc.1 ++ concatStrings ((diff.filter (fun l => lineMatches l path)).map
        (fun l => lineMarker l.kind ++ l.content)),
       acc.2 || diff.any (fun l => lineMatches l path)) := by
  induction diff generalizing acc with
  | nil => simp [concatStrings]
  | cons l rest ih =>
      rw [List.foldl_cons]
      by_cases h : lineMatches l path
      · rw [if_pos h, ih]
        simp [h, concatStrings, String.append_assoc]
      · rw [if_neg h, ih]
        simp [h]

theorem append_diff_eq_of_match (content : String) (diff : List DiffLine) (path : String)
    (h : diff.any (fun l => lineMatches l path) = true) :
    append_diff content diff path = specFilteredReport content diff path := by
  unfold append_diff specFilteredReport
  rw [append_diff_foldl]
  simp [h]

theorem append_diff_no_match (content : String) (diff : List DiffLine) (path : String)
    (h : diff.any (fun l => lineMatches l path) = false) :
    append_diff content diff path = content ++ "No changes\n" := by
  unfold append_diff
  rw [append_diff_foldl]
  have hf : diff.filter (fun l => lineMatches l path) = [] := by
    simp only [List.filter_eq_nil_iff]
    intro l hl
    have := List.any_eq_false.mp h l hl
    simpa using this
  simp [h, hf, concatStrings]

theorem append_diff_filter_invariant (content : String) (diff : List DiffLine) (path : String) :
    append_diff content diff path
      = append_diff content (diff.filter (fun l => lineMatches l path)) path := by
  unfold append_diff
  rw [append_diff_foldl, append_diff_foldl]
  simp [List.filter_filter, List.any_filter]

theorem stage_all_modified_foldl (statuses : List (Option String × Status))
    (index : List String) :
    statuses.foldl
      (fun idx e => if e.2 != Status.current then idx ++ [e.1.getD ""] else idx) index
    = index ++ (statuses.filter (fun e => e.2 != Status.current)).map (fun e => e.1.getD "") := by
  induction statuses generalizing index with
  | nil => simp
  | cons e rest ih =>
      rw [List.foldl_cons]
      by_cases h : e.2 != Status.current
      · rw [if_pos h, ih]
        simp [h]
      · rw [if_neg h, ih]
        simp [h]

/- Evaluation lemmas for Substring.takeWhileAux and
Substring.takeRightWhileAux, whose well-founded recursion the kernel does
not unfold; they let String.trim be computed on concrete strings. -/

theorem takeWhileAux_of_stop (s : String) (stopPos : String.Pos) (p : Char → Bool)
    (i : String.Pos) (h : ¬ i < stopPos) :
    Substring.takeWhileAux s stopPos p i = i := by
  rw [Substring.takeWhileAux]
  simp [h]

theorem takeWhileAux_of_false (s : String) (stopPos : String.Pos) (p : Char → Bool)
    (i : String.Pos) (h : i < stopPos) (hp : p (s.get i) = false) :
    Substring.takeWhileAux s stopPos p i = i := by
  rw [Substring.takeWhileAux]
  simp [h, hp]

theorem takeWhileAux_of_true (s : String) (stopPos : String.Pos) (p : Char → Bool)
    (i : String.Pos) (h : i < stopPos) (hp : p (s.get i) = true) :
    Substring.takeWhileAux s stopPos p i = Substring.takeWhileAux s stopPos p (s.next i) := by
  conv_lhs => rw [Substring.takeWhileAux]
  simp [h, hp]

theorem takeRightWhileAux_of_stop (s : String) (begPos : String.Pos) (p : Char → Bool)
    (i : String.Pos) (h : ¬ begPos < i) :
    Substring.takeRightWhileAux s begPos p i = i := by
  rw [Substring.takeRightWhileAux]
  simp [h]

theorem takeRightWhileAux_of_false (s : String) (begPos : String.Pos) (p : Char → Bool)
    (i : String.Pos) (h : begPos < i) (hp : p (s.get (s.prev i)) = false) :
    Substring.takeRightWhileAux s begPos p i = i := by
  rw [Substring.takeRightWhileAux]
  simp [h, hp]

theorem takeRightWhileAux_of_true (s : String) (begPos : String.Pos) (p : Char → Bool)
    (i : String.Pos) (h : begPos < i) (hp : p (s.get (s.prev i)) = true) :
    Substring.takeRightWhileAux s begPos p i
      = Substring.takeRightWhileAux s begPos p (s.prev i) := by
  conv_lhs => rw [Substring.takeRightWhileAux]
  simp [h, hp]

theorem c4report_trim :
    c4report.trim = "Unstaged changes:\nNo changes\n\nStaged changes:\nNo changes" := by
  show (c4report.toSubstring.trim).toString = _
  rw [String.toSubstring, Substring.trim]
  rw [takeWhileAux_of_false _ _ _ _ (by decide) (by decide)]
  rw [takeRightWhileAux_of_true _ _ _ _ (by decide) (by decide)]
  rw [show c4report.prev c4report.endPos = ⟨56⟩ by decide]
  rw [takeRightWhileAux_of_false _ _ _ _ (by decide) (by decide)]
  decide

theorem seenInv_push (acc : List FileEntry × List String) (e : FileEntry)
    (h : SeenInv acc) (hc : e.name ∉ acc.2) :
    SeenInv (acc.1 ++ [e], acc.2 ++ [e.name]) := by
  obtain ⟨hnd, hsub⟩ := h
  refine ⟨?_, ?_⟩
  · rw [List.map_append]
    simp only [List.map_cons, List.map_nil]
    rw [List.nodup_append]
    refine ⟨hnd, List.nodup_singleton _, ?_⟩
    intro n hn hn'
    have : n = e.name := by simpa using hn'
    subst this
    exact hc (hsub _ hn)
  · intro n hn
    rw [List.map_append] at hn
    rcases List.mem_append.mp hn with hn | hn
    · exact List.mem_append.mpr (Or.inl (hsub _ hn))
    · have : n = e.name := by simpa using hn
      subst this
      simp

theorem contains_false_of_not_mem {l : List String} {a : String}
    (h : l.contains a = false) : a ∉ l := by
  intro hmem
  rw [List.contains_eq_any_beq] at h
  have := List.any_eq_false.mp h a hmem
  simp at this

theorem statusPhase_inv (statuses : List (Option String × Status))
    (isDir : String → Bool) (current_dir : String) :
    SeenInv (statusPhase statuses isDir current_dir) := by
  unfold statusPhase
  have base : SeenInv (([], []) : List FileEntry × List String) := by
    constructor
    · simp
    · intro n hn
      simp at hn
  generalize hacc : (([], []) : List FileEntry × List String) = acc
  rw [hacc] at base
  clear hacc
  induction statuses generalizing acc with
  | nil => simpa using base
  | cons e rest ih =>
      rw [List.foldl_cons]
      apply ih
      dsimp only
      split
      · split
        · exact base
        · rename_i hc
          exact seenInv_push acc _ base (contains_false_of_not_mem (by simpa using hc))
      · exact base

theorem handle_key_commit_branch (repo : Repo) (key : KeyCode) (app : App)
    (hv : app.commit_modal.is_visible = true) :
    handle_key_event repo key app = handle_commit_key repo key app := by
  delta handle_key_event
  rw [hv]
  exact rfl

theorem handle_key_browsing_branch (repo : Repo) (key : KeyCode) (app : App)
    (hv : app.commit_modal.is_visible = false) :
    handle_key_event repo key app = handle_browsing_key repo key app := by
  delta handle_key_event
  rw [hv]
  exact rfl

theorem browsing_key_char_c (repo : Repo) (app : App) :
    handle_browsing_key repo (.char 'c') app = start_commit repo app := by
  delta handle_browsing_key
  cases app.focused_pane <;> exact rfl

theorem browsing_key_enter (repo : Repo) (app : App) :
    handle_browsing_key repo .enter app = toggle_directory repo app := by
  delta handle_browsing_key
  cases app.focused_pane <;> exact rfl

mutual

theorem addNode_inv (sf : String → Option Status) (d c : String) (n : FsNode)
    (acc : List FileEntry × List String) (h : SeenInv acc) :
    SeenInv (addUntrackedNode sf d c n acc) := by
  cases n with
  | file name =>
      rw [addUntrackedNode]
      dsimp only [FsNode.name, FsNode.isDir]
      split
      · exact h
      · rename_i hc
        exact seenInv_push acc _ h (contains_false_of_not_mem (by simpa using hc))
  | dir name children =>
      rw [addUntrackedNode]
      dsimp only [FsNode.name, FsNode.isDir]
      split
      · exact h
      · rename_i hc
        exact addList_inv sf _ _ children _
          (seenInv_push acc _ h (contains_false_of_not_mem (by simpa using hc)))

theorem addList_inv (sf : String → Option Status) (d c : String) (ns : List FsNode)
    (acc : List FileEntry × List String) (h : SeenInv acc) :
    SeenInv (addUntrackedList sf d c ns acc) := by
  match ns with
  | [] =>
      rw [addUntrackedList]
      exact h
  | n :: rest =>
      rw [addUntrackedList]
      exact addList_inv sf d c rest _ (addNode_inv sf d c n acc h)

end

theorem get_file_list_names_nodup (statuses : List (Option String × Status))
    (isDir : String → Bool) (statusFile : String → Option Status)
    (listing : Option (List FsNode)) (current_dir : String) :
    ((get_file_list statuses isDir statusFile listing current_dir).map
      (fun e => e.name)).Nodup := by
  unfold get_file_list
  have h1 := statusPhase_inv statuses isDir current_dir
  cases hL : (if current_dir = "" then none else listing) with
  | none =>
      exact ((List.perm_insertionSort fileLe _).map (fun e => e.name)).nodup_iff.mpr h1.1
  | some ns =>
      exact ((List.perm_insertionSort fileLe _).map (fun e => e.name)).nodup_iff.mpr
        (addList_inv statusFile current_dir current_dir ns _ h1).1

/- Claim theorems. -/

/-- C1: the claim states that the selection invariant
0 <= selected_index < entries.len() holds after every public operation,
including the full tree rebuild after a successful commit. The code
violates it: perform_commit replaces the file list without clamping
selected_index, so confirming a commit from appC1 leaves a non-empty
one-entry list with selected_index 1, and the next Enter key panics on
the out-of-bounds index. -/
theorem c1_commit_rebuild_violates_selection_invariant :
    handle_key_event repoC1 .enter appC1 = Res.ok appC1post
    ∧ appC1post.files ≠ []
    ∧ ¬ appC1post.selected_index < appC1post.files.length
    ∧ handle_key_event repoC1 .enter appC1post = Res.panic := by decide

/-- C2: the claim states that expanding a directory splices in the entries
built for that directory with re-based depths, and that expand followed by
collapse restores the original sequence. The code instead splices the full
root list returned by get_file_list with unchanged depths: from the
one-directory state appC2, toggling twice leaves two entries, so the
round trip does not restore the pre-expand sequence. -/
theorem c2_expand_collapse_does_not_restore :
    toggle_directory repoC2 appC2 = Res.ok appC2mid
    ∧ toggle_directory repoC2 appC2mid
        = Res.ok { appC2mid with expanded_dirs := [("/a", false)] }
    ∧ ({ appC2mid with expanded_dirs := [("/a", false)] } : App).files ≠ appC2.files
    ∧ appC2.files.length = 1
    ∧ appC2mid.files.length = 2 := by decide

/-- C3: for every diff stream containing at least one line owned by the
selected path, append_diff produces exactly the input content followed by,
for each line whose delta matches the selected path on the new or old
side, the marker of its line kind and the raw line text; lines of other
paths are discarded (filtering them away first gives the same report),
and the markers are plus, minus, the two end-of-file markers and space. -/
theorem c3_diff_report_filters_by_selected_path (content path : String)
    (diff : List DiffLine) (h : ∃ l ∈ diff, lineMatches l path = true) :
    append_diff content diff path = specFilteredReport content diff path
    ∧ append_diff content diff path
        = append_diff content (diff.filter (fun l => lineMatches l path)) path
    ∧ lineMarker .addition = "+" ∧ lineMarker .deletion = "-"
    ∧ lineMarker .addEOFNL = "+\n" ∧ lineMarker .deleteEOFNL = "-\n"
    ∧ lineMarker .context = " " := by
  have hany : diff.any (fun l => lineMatches l path) = true := by
    rcases h with ⟨l, hl, hm⟩
    exact List.any_eq_true.mpr ⟨l, hl, hm⟩
  exact ⟨append_diff_eq_of_match content diff path hany,
    append_diff_filter_invariant content diff path, rfl, rfl, rfl, rfl, rfl⟩

/-- Witness for C3 at a concrete two-file diff stream. -/
theorem c3_witness :
    (∃ l ∈ diffC3, lineMatches l "x.txt" = true)
    ∧ (append_diff "" diffC3 "x.txt" = specFilteredReport "" diffC3 "x.txt"
      ∧ append_diff "" diffC3 "x.txt"
          = append_diff "" (diffC3.filter (fun l => lineMatches l "x.txt")) "x.txt"
      ∧ lineMarker .addition = "+" ∧ lineMarker .deletion = "-"
      ∧ lineMarker .addEOFNL = "+\n" ∧ lineMarker .deleteEOFNL = "-\n"
      ∧ lineMarker .context = " ") :=
  ⟨by decide, c3_diff_report_filters_by_selected_path "" "x.txt" diffC3 (by decide)⟩

/-- C4: the claim states that when both diff sections record no change the
whole report equals the literal no-changes message. The code never takes
that branch: append_diff appends a No changes line to each empty section,
so the trimmed report cannot equal the bare pair of headers the
replacement test compares against, and the stored report is the two
headers with No changes lines rather than the literal message. -/
theorem c4_empty_sections_keep_section_headers :
    update_right_pane baseRepo appC4 = Res.ok { appC4 with right_pane_content := c4report }
    ∧ c4report ≠ "No changes detected for file: x.txt" := by
  constructor
  · have hne : ¬ c4report.trim = "Unstaged changes:\nStaged changes:" := by
      rw [c4report_trim]
      decide
    have hstep : update_right_pane baseRepo appC4
        = Res.ok { appC4 with right_pane_content :=
            if c4report.trim = "Unstaged changes:\nStaged changes:" then
              "No changes detected for file: " ++ "x.txt"
            else c4report } := rfl
    rw [hstep, if_neg hne]
  · decide

/-- C5: stage_all_modified adds to the index exactly the paths of status
entries whose status is not current, in stream order, and then persists
the index; a path whose status is current is never added. -/
theorem c5_stage_all_stages_exactly_noncurrent (statuses : List (Option String × Status))
    (index : List String) :
    (stage_all_modified statuses index).1
      = index ++ (statuses.filter (fun e => e.2 != Status.current)).map (fun e => e.1.getD "")
    ∧ (stage_all_modified statuses index).2 = true
    ∧ ∀ p : String, p ∈ (stage_all_modified statuses index).1 ↔
        p ∈ index ∨ ∃ e, e ∈ statuses ∧ e.2 ≠ Status.current ∧ e.1.getD "" = p := by
  refine ⟨stage_all_modified_foldl statuses index, rfl, ?_⟩
  intro p
  unfold stage_all_modified
  rw [stage_all_modified_foldl]
  simp only [List.mem_append, List.mem_map, List.mem_filter, bne_iff_ne, ne_eq]
  constructor
  · rintro (hp | ⟨e, ⟨he, hne⟩, hp⟩)
    · exact Or.inl hp
    · exact Or.inr ⟨e, he, hne, hp⟩
  · rintro (hp | ⟨e, he, hne, hp⟩)
    · exact Or.inl hp
    · exact Or.inr ⟨e, ⟨he, hne⟩, hp⟩

/-- C6: when the commit dialog is open and create_commit fails, confirming
with Enter propagates the error with the state unchanged: the dialog is
still visible, the typed message, the entry list, the expansion set and
the detail content are all exactly as before. -/
theorem c6_commit_failure_is_atomic (repo : Repo) (app : App)
    (hv : app.commit_modal.is_visible = true) (hc : repo.commitOk = false) :
    handle_key_event repo .enter app = Res.err app
    ∧ ∀ s, handle_key_event repo .enter app = Res.err s →
        s.commit_modal.is_visible = true
        ∧ s.commit_modal.content = app.commit_modal.content
        ∧ s.files = app.files
        ∧ s.expanded_dirs = app.expanded_dirs
        ∧ s.right_pane_content = app.right_pane_content := by
  have h1 : handle_key_event repo .enter app = Res.err app := by
    rw [handle_key_commit_branch repo .enter app hv]
    show perform_commit repo app = Res.err app
    delta perform_commit
    rw [hc]
    exact rfl
  refine ⟨h1, ?_⟩
  intro s hs
  rw [h1] at hs
  cases hs
  exact ⟨hv, rfl, rfl, rfl, rfl⟩

/-- Witness for C6 at a concrete open dialog and failing repository. -/
theorem c6_witness :
    appC6.commit_modal.is_visible = true ∧ repoC6.commitOk = false
    ∧ handle_key_event repoC6 .enter appC6 = Res.err appC6 :=
  ⟨rfl, rfl, (c6_commit_failure_is_atomic repoC6 appC6 rfl rfl).1⟩

/-- C7 counterexample: the claim states that after cancelling the dialog
the typed text is discarded so the next opening starts from an empty
message. From appC7 with the message wip, Esc closes the dialog and the
next stage-and-open key reopens it still holding wip, a non-empty
message. -/
theorem c7_counterexample_text_not_discarded :
    handle_key_event baseRepo .esc appC7 = Res.ok appC7closed
    ∧ handle_key_event baseRepo (.char 'c') appC7closed
        = Res.ok { appC7closed with commit_modal := ⟨"wip", true⟩ }
    ∧ ({ appC7closed with commit_modal := ⟨"wip", true⟩ } : App).commit_modal.content
        ≠ "" := by decide

/-- C7 amended: cancelling the open commit dialog returns to browsing with
no commit created (the result is a pure function of the state, for every
repository), but the typed text is retained in the dialog buffer, so the
next opening of the commit dialog shows the previously typed message. -/
theorem c7_cancel_keeps_typed_text (repo repo2 : Repo) (app : App)
    (hv : app.commit_modal.is_visible = true) (hs : repo2.stageOk = true) :
    handle_key_event repo .esc app
      = Res.ok
          { app with
            commit_modal := ⟨app.commit_modal.content, false⟩,
            help_modal := ⟨app.help_modal.content, false⟩ }
    ∧ handle_key_event repo2 (.char 'c')
        { app with
          commit_modal := ⟨app.commit_modal.content, false⟩,
          help_modal := ⟨app.help_modal.content, false⟩ }
      = Res.ok
          { app with
            commit_modal := ⟨app.commit_modal.content, true⟩,
            help_modal := ⟨app.help_modal.content, false⟩ } := by
  constructor
  · rw [handle_key_commit_branch repo .esc app hv]
    exact rfl
  · rw [handle_key_browsing_branch repo2 (.char 'c') _ rfl, browsing_key_char_c]
    delta start_commit
    rw [hs]
    exact rfl

/-- Witness for C7 at the concrete wip state. -/
theorem c7_witness :
    appC7.commit_modal.is_visible = true ∧ baseRepo.stageOk = true
    ∧ (handle_key_event baseRepo .esc appC7
        = Res.ok
            { appC7 with
              commit_modal := ⟨appC7.commit_modal.content, false⟩,
              help_modal := ⟨appC7.help_modal.content, false⟩ }
      ∧ handle_key_event baseRepo (.char 'c')
          { appC7 with
            commit_modal := ⟨appC7.commit_modal.content, false⟩,
            help_modal := ⟨appC7.help_modal.content, false⟩ }
        = Res.ok
            { appC7 with
              commit_modal := ⟨appC7.commit_modal.content, true⟩,
              help_modal := ⟨appC7.help_modal.content, false⟩ }) :=
  ⟨rfl, rfl, c7_cancel_keeps_typed_text baseRepo baseRepo appC7 rfl rfl⟩

/-- C8 counterexample: the claim states that a path seen by the status
query is never re-added by the filesystem scan. In a build scoped to the
existing directory sub, whose read_dir succeeds and lists the nested
directory inner, the status query reports sub/inner/g.txt and the built
sequence holds two entries for that same filesystem path: the status
entry named inner/g.txt (the path relative to the scope, parent none) and
a scan entry named g.txt with parent sub/inner, because the scan
deduplicates by bare file name rather than by relative path. -/
theorem c8_counterexample_path_readded_by_scan :
    ((get_file_list statusesC8 (fun _ => false) (fun _ => none) listingC8 "sub").filter
      (fun e => joinPath (e.parent.getD "sub") e.name == "sub/inner/g.txt")).length = 2
    ∧ (get_file_list statusesC8 (fun _ => false) (fun _ => none) listingC8 "sub").map
        (fun e => (e.name, e.parent))
      = [("inner", some "sub"), ("g.txt", some "sub/inner"), ("inner/g.txt", none)] := by
  decide

/-- C8 amended: the two build phases deduplicate by the name of the entry,
a string, with the first occurrence winning: the status phase keys the path
relative to the scope and the scan keying the bare file name, so no two
entries of the built sequence share the same name string (the same
filesystem path can still appear twice under two different name
strings). -/
theorem c8_entries_deduplicated_by_name_string (statuses : List (Option String × Status))
    (isDir : String → Bool) (statusFile : String → Option Status)
    (listing : Option (List FsNode)) (current_dir : String) :
    ((get_file_list statuses isDir statusFile listing current_dir).map
      (fun e => e.name)).Nodup :=
  get_file_list_names_nodup statuses isDir statusFile listing current_dir

/-- C9: the view/toggle operation indexes the entry list at selected_index
with only a non-emptiness guard of its own; whenever the selection
invariant selected_index < entries.len() holds, the access yields an
entry and the whole operation, including its delegation to
update_right_pane, never reaches the panic outcome. -/
theorem c9_selected_index_access_in_bounds (repo : Repo) (app : App)
    (h : app.selected_index < app.files.length) :
    (∃ e, app.files.get? app.selected_index = some e)
    ∧ toggle_directory repo app ≠ Res.panic := by
  have he : app.files.get? app.selected_index
      = some (app.files.get ⟨app.selected_index, h⟩) := List.get?_eq_get h
  have hne : app.files.isEmpty = false := by
    cases hf : app.files with
    | nil =>
        rw [hf] at h
        simp at h
    | cons a l => rfl
  refine ⟨⟨_, he⟩, ?_⟩
  cases hres : toggle_directory repo app with
  | ok s => simp
  | err s => simp
  | panic =>
      exfalso
      delta toggle_directory at hres
      rw [hne] at hres
      rw [if_neg Bool.false_ne_true] at hres
      rw [he] at hres
      dsimp only at hres
      split at hres
      · -- directory entry
        split at hres
        · simp at hres
        · have hcol : collapse_directory app.files app.selected_index
              = some (app.files.take (app.selected_index + 1)
                ++ (app.files.drop (app.selected_index + 1)).dropWhile
                  (fun f => decide ((app.files.get ⟨app.selected_index, h⟩).depth < f.depth))) := by
            delta collapse_directory
            rw [he]
          rw [hcol] at hres
          dsimp only at hres
          simp at hres
      · -- file entry: update_right_pane
        delta update_right_pane at hres
        rw [he] at hres
        dsimp only at hres
        split at hres
        · simp at hres
        · split at hres
          · simp at hres
          · simp at hres

/-- Witness for C9 at a concrete one-entry state. -/
theorem c9_witness :
    appC9.selected_index < appC9.files.length
    ∧ ((∃ e, appC9.files.get? appC9.selected_index = some e)
      ∧ toggle_directory baseRepo appC9 ≠ Res.panic) :=
  ⟨by decide, c9_selected_index_access_in_bounds baseRepo appC9 (by decide)⟩

/-- C10: key dispatch is gated only by the commit modal. While the help
modal is visible and the commit modal is not, every key is handled by the
browsing-mode dispatch: the arrow keys move the selection, Enter toggles
the selected directory or views the file, and the c key stages and opens
the commit dialog, all underneath the open help overlay. -/
theorem c10_help_overlay_does_not_gate_dispatch (repo : Repo) (app : App)
    (hc : app.commit_modal.is_visible = false)
    (_hv : app.help_modal.is_visible = true)
    (hf : app.focused_pane = FocusedPane.fileList) :
    handle_key_event repo .up app = Res.ok (move_selection_up app)
    ∧ handle_key_event repo .down app = Res.ok (move_selection_down app)
    ∧ handle_key_event repo .enter app = toggle_directory repo app
    ∧ handle_key_event repo (.char 'c') app = start_commit repo app := by
  refine ⟨?_, ?_, ?_, ?_⟩
  · rw [handle_key_browsing_branch repo .up app hc]
    delta handle_browsing_key
    rw [hf]
  · rw [handle_key_browsing_branch repo .down app hc]
    delta handle_browsing_key
    rw [hf]
  · rw [handle_key_browsing_branch repo .enter app hc, browsing_key_enter]
  · rw [handle_key_browsing_branch repo (.char 'c') app hc, browsing_key_char_c]

/-- Witness for C10 at a concrete state with the help overlay open. -/
theorem c10_witness :
    (appC10.commit_modal.is_visible = false ∧ appC10.help_modal.is_visible = true
      ∧ appC10.focused_pane = FocusedPane.fileList)
    ∧ (handle_key_event baseRepo .up appC10 = Res.ok (move_selection_up appC10)
      ∧ handle_key_event baseRepo .down appC10 = Res.ok (move_selection_down appC10)
      ∧ handle_key_event baseRepo .enter appC10 = toggle_directory baseRepo appC10
      ∧ handle_key_event baseRepo (.char 'c') appC10 = start_commit baseRepo appC10) :=
  ⟨⟨rfl, rfl, rfl⟩,
    c10_help_overlay_does_not_gate_dispatch baseRepo appC10 rfl rfl rfl⟩

end Gitui
